import Mathlib

/-!
Shallow embedding of the fiber-introspect middleware (`introspect.go`).

The middleware validates bearer tokens against an RFC 7662 introspection
endpoint.  The embedding models:

* `Config`            — the exported configuration struct (introspect.go:19-67);
* `introspectionResult` / `Session` — the decoded endpoint response and the
  session stored into the request context (introspect.go:69-85);
* `TokenFromHeader`   — the default token extractor (introspect.go:220-229);
* `requestBody`       — the form body of the outbound POST (introspect.go:132-135);
* `evalResult`        — the policy checks applied to a decoded result plus the
  session construction (introspect.go:167-215);
* `handle`            — the per-request handler returned by `New`
  (introspect.go:124-216).

Go maps are modelled as association lists with `mapGet`/`mapSet`; Go strings
handled by byte slicing (`TokenFromHeader`) are modelled as `List Char`; the
HTTP exchange (request construction + `client.Do`) is an oracle
`List (String × String) → HttpResult` whose `transportError` constructor covers
both a `http.NewRequest` failure and a `client.Do` failure (both reach
`cfg.ErrorHandler` with a non-sentinel error).  The disposition handlers
(`Unauthorized`, `ErrorHandler`, `c.Next`) are modelled by the `Outcome` type;
the default handler bodies are modelled by `defaultUnauthorized` and
`defaultErrorHandler`.
-/

namespace Introspect

/-- Values stored in the open `map[string]interface{}` claim maps.  String
values (the only ones the middleware itself inserts) are `str`; arbitrary
other JSON values decoded from the endpoint are represented opaquely. -/
inductive GoValue where
  | str : String → GoValue
  | other : Nat → GoValue
deriving DecidableEq

/-- Go map lookup `m[k]` on an association-list model of a map. -/
def mapGet {α : Type} (m : List (String × α)) (k : String) : Option α :=
  match m with
  | [] => none
  | (k', v) :: rest => if k' = k then some v else mapGet rest k

/-- Go map assignment `m[k] = v` on an association-list model of a map. -/
def mapSet {α : Type} (m : List (String × α)) (k : String) (v : α) :
    List (String × α) :=
  match m with
  | [] => [(k, v)]
  | (k', v') :: rest => if k' = k then (k, v) :: rest else (k', v') :: mapSet rest k v

/-- Model of Go `strings.Join(elems, sep)`. -/
def stringsJoin (elems : List String) (sep : String) : String :=
  match elems with
  | [] => ""
  | [x] => x
  | x :: rest => x ++ sep ++ stringsJoin rest sep

/-- Splitting a character list at every space, keeping empty fields
(the behaviour of Go `strings.Split` with a single-space separator). -/
def splitSpaceChars (cs : List Char) : List (List Char) :=
  match cs with
  | [] => [[]]
  | c :: rest =>
    match splitSpaceChars rest with
    | [] => [[c]]
    | g :: gs => if c = ' ' then [] :: g :: gs else (c :: g) :: gs

/-- Model of Go `strings.Split(s, " ")` (introspect.go:193). -/
def stringsSplitSpace (s : String) : List String :=
  (splitSpaceChars s.toList).map List.asString

/-- `Config` (introspect.go:19-67).  The unexported `client` field (an
`*http.Client` holding only the fixed 500 ms timeout) is part of the HTTP
exchange oracle and carries no decision logic, so it is not a field here.
The struct has no `Filter` and no `SuccessHandler` field; the disposition
callbacks (`Unauthorized`, `ErrorHandler`) are modelled by `Outcome`. -/
structure Config where
  IntrospectionURL : String
  AuthScheme : String
  ContextKey : String
  Scopes : List String
  Audience : List String
  Issuers : List String
  ScopeStrategy : Option (List String → String → Bool)
  IntrospectionRequestHeaders : List (String × String)

/-- `Session` (introspect.go:70-73). -/
structure Session where
  Subject : String
  Extra : List (String × GoValue)
deriving DecidableEq

/-- `introspectionResult` (introspect.go:75-85), the decoded JSON body of a
200 response from the endpoint. -/
structure introspectionResult where
  Active : Bool
  Extra : List (String × GoValue)
  Subject : String
  Username : String
  Audience : List String
  TokenType : String
  Issuer : String
  ClientID : String
  Scope : String
deriving DecidableEq

/-- The error argument given to `cfg.ErrorHandler` (introspect.go:109-118):
either the sentinel `errMalformedToken`, or a transport error from
`http.NewRequest`/`client.Do`, or a JSON decode error. -/
inductive PipelineError where
  | malformedToken
  | transport
  | decode
deriving DecidableEq

/-- The terminal disposition of one request: `error e` models
`cfg.ErrorHandler(c, e)`, `unauthorized` models `cfg.Unauthorized(c)`, and
`next s` models `c.Locals(cfg.ContextKey, s); c.Next()`. -/
inductive Outcome where
  | error : PipelineError → Outcome
  | unauthorized : Outcome
  | next : Session → Outcome
deriving DecidableEq

/-- The body of an HTTP response from the introspection endpoint: either it
decodes as an `introspectionResult` or `json.Decode` fails. -/
inductive JsonBody where
  | malformed
  | decoded : introspectionResult → JsonBody
deriving DecidableEq

/-- Result of the outbound HTTP exchange: a transport-level failure
(`http.NewRequest` or `client.Do` returning an error, including timeout) or a
response with a status code and a body. -/
inductive HttpResult where
  | transportError
  | response : Nat → JsonBody → HttpResult
deriving DecidableEq

/-- A status/body pair written by a default disposition handler. -/
structure HttpResponse where
  status : Nat
  body : String
deriving DecidableEq

/-- Default `Unauthorized` handler: `c.SendStatus(401)` (introspect.go:101-105). -/
def defaultUnauthorized : HttpResponse :=
  { status := 401, body := "" }

/-- Default `ErrorHandler` (introspect.go:109-118): 400 plus the sentinel
error message for `errMalformedToken`, 500 with no body otherwise. -/
def defaultErrorHandler : PipelineError → HttpResponse :=
  fun e =>
    match e with
    | PipelineError.malformedToken => { status := 400, body := "Missing or malformed token" }
    | PipelineError.transport => { status := 500, body := "" }
    | PipelineError.decode => { status := 500, body := "" }

/-- Defaulting of `ContextKey` and `AuthScheme` in `New` (introspect.go:95-100). -/
def applyDefaults (cfg : Config) : Config :=
  { cfg with
    ContextKey := if cfg.ContextKey = "" then "user" else cfg.ContextKey
    AuthScheme := if cfg.AuthScheme = "" then "Bearer" else cfg.AuthScheme }

/-- `TokenFromHeader` (introspect.go:220-229), applied to the value of the
configured header (`c.Get(header)`).  Go strings are byte slices; they are
modelled as `List Char` so that `auth[:l]` / `auth[l+1:]` become
`take` / `drop`. -/
def TokenFromHeader (authScheme : List Char) (auth : List Char) : List Char :=
  if authScheme.length + 1 < auth.length ∧ auth.take authScheme.length = authScheme then
    auth.drop (authScheme.length + 1)
  else []

/-- The form body of the outbound introspection request (introspect.go:132-135):
always the token, plus the space-joined required scopes exactly when no
`ScopeStrategy` is configured. -/
def requestBody (cfg : Config) (token : String) : List (String × String) :=
  match cfg.ScopeStrategy with
  | none => [(("token"), token), (("scope"), stringsJoin cfg.Scopes (" "))]
  | some _ => [(("token"), token)]

/-- `contains` (introspect.go:252-259). -/
def contains (s : List String) (v : String) : Bool :=
  match s with
  | [] => false
  | vv :: rest => if vv = v then true else contains rest v

/-- The scope loop (introspect.go:191-198): when a `ScopeStrategy` is
configured every required scope must satisfy it against the space-split
granted scopes; when none is configured the loop is skipped entirely. -/
def scopeCheck (cfg : Config) (i : introspectionResult) : Bool :=
  match cfg.ScopeStrategy with
  | none => true
  | some strategy => cfg.Scopes.all fun scope => strategy (stringsSplitSpace i.Scope) scope

/-- `SessionBuilder` part of the handler (introspect.go:200-211): replace a
nil/empty extra map with a fresh one, then set `username`, `client_id` and
`scope` (in that order) from the top-level result fields. -/
def buildSession (i : introspectionResult) : Session :=
  { Subject := i.Subject
    Extra :=
      mapSet
        (mapSet
          (mapSet (if i.Extra.length = 0 then [] else i.Extra)
            ("username") (GoValue.str i.Username))
          ("client_id") (GoValue.str i.ClientID))
        ("scope") (GoValue.str i.Scope) }

/-- Policy evaluation and session construction for a decoded result
(introspect.go:167-215): token-type gate, active gate, audience loop,
issuer check, scope loop, then `c.Locals`/`c.Next` with the built session. -/
def evalResult (cfg : Config) (i : introspectionResult) : Outcome :=
  if 0 < i.TokenType.length ∧ i.TokenType ≠ "access_token" then Outcome.unauthorized
  else if i.Active = false then Outcome.unauthorized
  else if (cfg.Audience.all fun audience => contains i.Audience audience) = false then
    Outcome.unauthorized
  else if 0 < cfg.Issuers.length ∧ contains cfg.Issuers i.Issuer = false then
    Outcome.unauthorized
  else if scopeCheck cfg i = false then Outcome.unauthorized
  else Outcome.next (buildSession i)

/-- Handling of the HTTP exchange result (introspect.go:149-165): transport
error → `ErrorHandler`; non-200 status → `Unauthorized` without touching the
body; 200 → decode, decode failure → `ErrorHandler`, success → policy. -/
def handleResponse (cfg : Config) (r : HttpResult) : Outcome :=
  match r with
  | HttpResult.transportError => Outcome.error PipelineError.transport
  | HttpResult.response status body =>
    if status ≠ 200 then Outcome.unauthorized
    else
      match body with
      | JsonBody.malformed => Outcome.error PipelineError.decode
      | JsonBody.decoded i => evalResult cfg i

/-- The per-request handler returned by `New` (introspect.go:124-216), with
the already-extracted token (`cfg.TokenLookup(c)`) and the HTTP exchange as
an oracle from the request body to an `HttpResult`. -/
def handle (cfg : Config) (token : String)
    (exchange : List (String × String) → HttpResult) : Outcome :=
  if token = "" then Outcome.error PipelineError.malformedToken
  else handleResponse cfg (exchange (requestBody cfg token))

/-! ### Concrete fixtures used by witnesses and counterexamples -/

/-- A base configuration with no policy requirements and no custom strategy. -/
def cfgBase : Config :=
  { IntrospectionURL := "https://auth.example.com/oauth2/introspect"
    AuthScheme := "Bearer"
    ContextKey := "user"
    Scopes := []
    Audience := []
    Issuers := []
    ScopeStrategy := none
    IntrospectionRequestHeaders := [] }

/-- A concrete extracted token. -/
def tokStr : String := "abc123"

/-- A decoded result with every optional field empty and `active = true`. -/
def emptyResult : introspectionResult :=
  { Active := true
    Extra := []
    Subject := ""
    Username := ""
    Audience := []
    TokenType := ""
    Issuer := ""
    ClientID := ""
    Scope := "" }

/-- An inactive result whose other fields are all individually acceptable. -/
def inactiveResult : introspectionResult :=
  { emptyResult with
    Active := false
    TokenType := "access_token"
    Username := "alice"
    Scope := "read write" }

/-- An active result whose granted scope string is `"read write"`. -/
def readWriteResult : introspectionResult :=
  { emptyResult with Scope := "read write" }

/-- Required scopes `["admin"]`, no custom scope strategy. -/
def cfgAdminScope : Config :=
  { cfgBase with Scopes := ["admin"] }

/-- The exact-membership scope strategy the spec describes as the default. -/
def exactScopeStrategy : List String → String → Bool :=
  fun granted scope => contains granted scope

/-- Required scopes `["admin"]` with the exact-membership strategy installed. -/
def cfgExactAdmin : Config :=
  { cfgBase with Scopes := ["admin"], ScopeStrategy := some exactScopeStrategy }

/-- A result carrying a non-empty token type other than `"access_token"`. -/
def badTypeResult : introspectionResult :=
  { emptyResult with TokenType := "refresh_token" }

/-- A result whose audience sequence is `["svc1"]`. -/
def audienceResult : introspectionResult :=
  { emptyResult with Audience := ["svc1"] }

/-- Required audiences `["svc1", "svc2"]`. -/
def cfgTwoAudiences : Config :=
  { cfgBase with Audience := ["svc1", "svc2"] }

/-- Required audience `["svc1"]`. -/
def cfgOneAudience : Config :=
  { cfgBase with Audience := ["svc1"] }

/-- An exchange oracle answering 200 with the inactive result. -/
def exchangeInactive : List (String × String) → HttpResult :=
  fun _ => HttpResult.response 200 (JsonBody.decoded inactiveResult)

/-- An exchange oracle answering 200 with the audience result. -/
def exchangeAudience : List (String × String) → HttpResult :=
  fun _ => HttpResult.response 200 (JsonBody.decoded audienceResult)

/-- An exchange oracle answering 503 with a body that is not valid JSON. -/
def exchangeServerError : List (String × String) → HttpResult :=
  fun _ => HttpResult.response 503 JsonBody.malformed

/-- An exchange oracle answering 200 with the bad-token-type result. -/
def exchangeBadType : List (String × String) → HttpResult :=
  fun _ => HttpResult.response 200 (JsonBody.decoded badTypeResult)

/-- The configured scheme `"Bearer"` as a character list. -/
def bearerScheme : List Char := "Bearer".toList

/-- A well-formed authorization header value. -/
def authHeaderOk : List Char := "Bearer abc123".toList

/-- A header value using a different scheme. -/
def authHeaderBad : List Char := "Basic x".toList

/-! ### Helper lemmas -/

/-- A non-empty Go string has positive length. -/
theorem string_pos_of_ne_empty (s : String) (h : s ≠ "") : 0 < s.length := by
  rcases s with ⟨data⟩
  cases data with
  | nil => exact absurd (by rfl) h
  | cons c cs => exact Nat.succ_pos _

/-- `mapGet` after `mapSet`: the set key reads back the new value, every
other key is unchanged. -/
theorem mapGet_mapSet {α : Type} (m : List (String × α)) (k : String) (v : α)
    (k' : String) :
    mapGet (mapSet m k v) k' = if k' = k then some v else mapGet m k' := by
  induction m with
  | nil =>
    by_cases h : k' = k
    · simp [mapSet, mapGet, h]
    · simp [mapSet, mapGet, h, Ne.symm h]
  | cons p rest ih =>
    obtain ⟨a, b⟩ := p
    by_cases hak : a = k
    · subst hak
      by_cases h : k' = a
      · simp [mapSet, mapGet, h]
      · simp [mapSet, mapGet, h, Ne.symm h]
    · by_cases h : a = k'
      · subst h
        simp [mapSet, mapGet, hak, Ne.symm hak]
      · simp [mapSet, mapGet, hak, h, ih]

/-- Any decoded result with `Active = false` is rejected by the policy. -/
theorem evalResult_of_active_false (cfg : Config) (i : introspectionResult)
    (h : i.Active = false) : evalResult cfg i = Outcome.unauthorized := by
  unfold evalResult
  split_ifs with h1 <;> rfl

/-- Reduction of `handle` when the token is non-empty and the exchange
returns a 200 response with a decoded body. -/
theorem handle_decoded (cfg : Config) (token : String)
    (exchange : List (String × String) → HttpResult) (i : introspectionResult)
    (htok : token ≠ "")
    (hresp : exchange (requestBody cfg token) = HttpResult.response 200 (JsonBody.decoded i)) :
    handle cfg token exchange = evalResult cfg i := by
  unfold handle
  rw [if_neg htok, hresp]
  simp only [handleResponse]
  rw [if_neg (by decide : ¬ ((200 : Nat) ≠ 200))]

/-- The policy accepts when every check passes. -/
theorem evalResult_accepts (cfg : Config) (i : introspectionResult)
    (ht : i.TokenType = "" ∨ i.TokenType = "access_token")
    (ha : i.Active = true)
    (haud : ∀ a ∈ cfg.Audience, contains i.Audience a = true)
    (hiss : cfg.Issuers = [] ∨ contains cfg.Issuers i.Issuer = true)
    (hsc : ∀ st, cfg.ScopeStrategy = some st →
      ∀ s ∈ cfg.Scopes, st (stringsSplitSpace i.Scope) s = true) :
    evalResult cfg i = Outcome.next (buildSession i) := by
  have h1 : ¬ (0 < i.TokenType.length ∧ i.TokenType ≠ "access_token") := by
    rcases ht with h | h
    · rintro ⟨hl, -⟩
      rw [h] at hl
      exact absurd hl (by decide)
    · rintro ⟨-, hn⟩
      exact hn h
  have h2 : ¬ (i.Active = false) := by
    rw [ha]
    decide
  have h3 : ¬ ((cfg.Audience.all fun audience => contains i.Audience audience) = false) := by
    rw [List.all_eq_true.mpr haud]
    decide
  have h4 : ¬ (0 < cfg.Issuers.length ∧ contains cfg.Issuers i.Issuer = false) := by
    rintro ⟨hl, hc⟩
    rcases hiss with h | h
    · rw [h] at hl
      exact absurd hl (by decide)
    · rw [h] at hc
      exact Bool.noConfusion hc
  have h5 : ¬ (scopeCheck cfg i = false) := by
    cases hs : cfg.ScopeStrategy with
    | none =>
      simp [scopeCheck, hs]
    | some st =>
      simp only [scopeCheck, hs]
      rw [List.all_eq_true.mpr (hsc st hs)]
      decide
  unfold evalResult
  rw [if_neg h1, if_neg h2, if_neg h3, if_neg h4, if_neg h5]

/-! ### Claim theorems -/

/-- C1: for every decoded introspection result with `active = false`, the
pipeline invokes the unauthorized disposition (the `Unauthorized` handler) and
does not produce a `Session`, regardless of the values of any other field of
the result (the result `i` is universally quantified, so every other field is
arbitrary; the outcome `unauthorized` is not `next _`, so no session is
stored). -/
theorem active_false_unauthorized (cfg : Config) (token : String)
    (exchange : List (String × String) → HttpResult) (i : introspectionResult)
    (htok : token ≠ "")
    (hresp : exchange (requestBody cfg token) = HttpResult.response 200 (JsonBody.decoded i))
    (hact : i.Active = false) :
    handle cfg token exchange = Outcome.unauthorized := by
  rw [handle_decoded cfg token exchange i htok hresp]
  exact evalResult_of_active_false cfg i hact

/-- Witness for C1 at a concrete inactive result. -/
theorem active_false_unauthorized_witness :
    handle cfgBase tokStr exchangeInactive = Outcome.unauthorized :=
  active_false_unauthorized cfgBase tokStr exchangeInactive inactiveResult
    (by decide) rfl rfl

/-- C3: whenever the token lookup yields the empty string, the handler invokes
the error disposition with the malformed-token sentinel — for every exchange
oracle, i.e. independently of the introspection endpoint, which is therefore
never consulted — and the default error handler maps that sentinel to a 400
response carrying the fixed diagnostic message. -/
theorem empty_token_malformed (cfg : Config)
    (exchange : List (String × String) → HttpResult) :
    handle cfg ("") exchange = Outcome.error PipelineError.malformedToken ∧
    defaultErrorHandler PipelineError.malformedToken =
      { status := 400, body := "Missing or malformed token" } :=
  ⟨by unfold handle; rw [if_pos rfl], rfl⟩

/-- C4: every introspection response with a status other than 200 leads to the
unauthorized disposition — not the error disposition — for every body,
including one that would fail to decode, so the body is never decoded. -/
theorem non200_unauthorized (cfg : Config) (token : String)
    (exchange : List (String × String) → HttpResult) (status : Nat) (body : JsonBody)
    (htok : token ≠ "")
    (hresp : exchange (requestBody cfg token) = HttpResult.response status body)
    (hstatus : status ≠ 200) :
    handle cfg token exchange = Outcome.unauthorized := by
  unfold handle
  rw [if_neg htok, hresp]
  simp only [handleResponse]
  rw [if_pos hstatus]

/-- Witness for C4: a 503 response with an undecodable body. -/
theorem non200_unauthorized_witness :
    handle cfgBase tokStr exchangeServerError = Outcome.unauthorized :=
  non200_unauthorized cfgBase tokStr exchangeServerError 503 JsonBody.malformed
    (by decide) rfl (by decide)

/-- C10: the expected token type is the fixed literal `"access_token"` (not a
`Config` field — the configuration is universally quantified here): a decoded
result with any other non-empty `token_type` is rejected with the unauthorized
disposition whatever the `active` flag is, while an empty or `"access_token"`
token type makes the check transparent (the outcome is the same as with no
token type at all). -/
theorem token_type_gate (cfg : Config) (i : introspectionResult) :
    (i.TokenType ≠ "" → i.TokenType ≠ "access_token" →
      ∀ b : Bool, evalResult cfg { i with Active := b } = Outcome.unauthorized) ∧
    (i.TokenType = "" ∨ i.TokenType = "access_token" →
      evalResult cfg i = evalResult cfg { i with TokenType := "" }) := by
  constructor
  · intro h1 h2 b
    have hc : 0 < i.TokenType.length ∧ i.TokenType ≠ "access_token" :=
      ⟨string_pos_of_ne_empty _ h1, h2⟩
    unfold evalResult
    rw [if_pos hc]
  · intro h
    have hc : ¬ (0 < i.TokenType.length ∧ i.TokenType ≠ "access_token") := by
      rcases h with h | h
      · rintro ⟨hl, -⟩
        rw [h] at hl
        exact absurd hl (by decide)
      · rintro ⟨-, hn⟩
        exact hn h
    have hc' : ¬ (0 < (("" : String)).length ∧ ("" : String) ≠ "access_token") := by
      rintro ⟨hl, -⟩
      exact absurd hl (by decide)
    unfold evalResult
    rw [if_neg hc, if_neg hc']
    rfl

/-- Witness for C10: a `refresh_token` result is rejected even when active,
and an empty token type changes nothing. -/
theorem token_type_gate_witness :
    evalResult cfgBase { badTypeResult with Active := true } = Outcome.unauthorized ∧
    evalResult cfgBase emptyResult = evalResult cfgBase { emptyResult with TokenType := "" } :=
  ⟨(token_type_gate cfgBase badTypeResult).1 (by decide) (by decide) true,
   (token_type_gate cfgBase emptyResult).2 (Or.inl rfl)⟩

/-- C2 counterexample: with required scopes `["admin"]`, granted scope string
`"read write"` and no scope strategy configured (the default), the policy does
NOT reject — it accepts and builds a session — refuting the claim that the
default is a local conjunction of exact membership checks. -/
theorem default_scope_counterexample :
    evalResult cfgAdminScope readWriteResult ≠ Outcome.unauthorized ∧
    evalResult cfgAdminScope readWriteResult =
      Outcome.next (buildSession readWriteResult) := by
  constructor
  · decide
  · decide

/-- C2 (amended): when no scope strategy is configured, no local scope check
is performed at all — any granted scope string passes once the other checks
pass (the required scopes are instead forwarded to the endpoint in the
request body, see `scope_param_spec`); when a strategy is configured,
acceptance requires every required scope to satisfy it against the
space-split granted scopes, and a single failing scope rejects. -/
theorem scope_policy_spec (cfg : Config) (i : introspectionResult) :
    (cfg.ScopeStrategy = none →
      (i.TokenType = "" ∨ i.TokenType = "access_token") →
      i.Active = true →
      (∀ a ∈ cfg.Audience, contains i.Audience a = true) →
      (cfg.Issuers = [] ∨ contains cfg.Issuers i.Issuer = true) →
      evalResult cfg i = Outcome.next (buildSession i)) ∧
    (∀ st, cfg.ScopeStrategy = some st →
      (∃ s ∈ cfg.Scopes, st (stringsSplitSpace i.Scope) s = false) →
      evalResult cfg i = Outcome.unauthorized) := by
  constructor
  · intro hnone ht ha haud hiss
    refine evalResult_accepts cfg i ht ha haud hiss ?_
    intro st hst
    rw [hnone] at hst
    exact Option.noConfusion hst
  · rintro st hst ⟨s, hsmem, hsf⟩
    have hsc : scopeCheck cfg i = false := by
      simp only [scopeCheck, hst]
      rw [Bool.eq_false_iff]
      intro hT
      rw [List.all_eq_true] at hT
      have h2 := hT s hsmem
      rw [hsf] at h2
      exact Bool.noConfusion h2
    unfold evalResult
    split_ifs <;> rfl

/-- Witness for C2's amended claim: `["admin"]` against `"read write"` is
accepted with no strategy, and rejected once the exact-membership strategy is
actually installed. -/
theorem scope_policy_spec_witness :
    evalResult cfgAdminScope readWriteResult =
      Outcome.next (buildSession readWriteResult) ∧
    evalResult cfgExactAdmin readWriteResult = Outcome.unauthorized :=
  ⟨(scope_policy_spec cfgAdminScope readWriteResult).1 rfl (Or.inl rfl) rfl
      (by decide) (Or.inl rfl),
   (scope_policy_spec cfgExactAdmin readWriteResult).2 exactScopeStrategy rfl
      ⟨"admin", by decide, by decide⟩⟩

/-- C5: the outbound request body carries a `scope` parameter iff no scope
strategy is configured, and in that case its value is the space-joined
required scopes. -/
theorem scope_param_spec (cfg : Config) (token : String) :
    ((mapGet (requestBody cfg token) ("scope")).isSome ↔ cfg.ScopeStrategy = none) ∧
    (cfg.ScopeStrategy = none →
      mapGet (requestBody cfg token) ("scope") = some (stringsJoin cfg.Scopes (" "))) := by
  cases hs : cfg.ScopeStrategy with
  | none =>
    constructor
    · simp [requestBody, hs, mapGet]
    · intro _
      simp [requestBody, hs, mapGet]
  | some st =>
    constructor
    · simp [requestBody, hs, mapGet]
    · intro hc
      exact Option.noConfusion hc

/-- Witness for C5 with required scopes `["admin"]` and no strategy. -/
theorem scope_param_spec_witness :
    mapGet (requestBody cfgAdminScope tokStr) ("scope") =
      some (stringsJoin cfgAdminScope.Scopes (" ")) :=
  (scope_param_spec cfgAdminScope tokStr).2 rfl

/-- C6: for every decoded result, the built session's extra map is the
result's extra map (empty when it was nil/empty, which reads the same under
`mapGet`) with `username`, `client_id` and `scope` inserted or overwritten
from the top-level fields — so those three keys are always present — and the
subject is copied verbatim. -/
theorem session_build_spec (i : introspectionResult) :
    (buildSession i).Subject = i.Subject ∧
    ∀ k : String, mapGet (buildSession i).Extra k =
      if k = "scope" then some (GoValue.str i.Scope)
      else if k = "client_id" then some (GoValue.str i.ClientID)
      else if k = "username" then some (GoValue.str i.Username)
      else mapGet i.Extra k := by
  constructor
  · rfl
  · intro k
    show mapGet
      (mapSet
        (mapSet
          (mapSet (if i.Extra.length = 0 then [] else i.Extra)
            ("username") (GoValue.str i.Username))
          ("client_id") (GoValue.str i.ClientID))
        ("scope") (GoValue.str i.Scope)) k = _
    rw [mapGet_mapSet, mapGet_mapSet, mapGet_mapSet]
    have hbase :
        mapGet (if i.Extra.length = 0 then ([] : List (String × GoValue)) else i.Extra) k =
          mapGet i.Extra k := by
      by_cases h : i.Extra.length = 0
      · rw [if_pos h, List.length_eq_zero.mp h]
      · rw [if_neg h]
    rw [hbase]

/-- C7: for every configured required-audience set, a decoded result whose
audience sequence misses any required value is rejected with the unauthorized
disposition, and one that contains every required value is accepted and passed
on whenever all the other policy checks pass. -/
theorem audience_policy (cfg : Config) (token : String)
    (exchange : List (String × String) → HttpResult) (i : introspectionResult)
    (htok : token ≠ "")
    (hresp : exchange (requestBody cfg token) = HttpResult.response 200 (JsonBody.decoded i)) :
    ((∃ a ∈ cfg.Audience, contains i.Audience a = false) →
      handle cfg token exchange = Outcome.unauthorized) ∧
    ((∀ a ∈ cfg.Audience, contains i.Audience a = true) →
      (i.TokenType = "" ∨ i.TokenType = "access_token") →
      i.Active = true →
      (cfg.Issuers = [] ∨ contains cfg.Issuers i.Issuer = true) →
      (∀ st, cfg.ScopeStrategy = some st →
        ∀ s ∈ cfg.Scopes, st (stringsSplitSpace i.Scope) s = true) →
      handle cfg token exchange = Outcome.next (buildSession i)) := by
  rw [handle_decoded cfg token exchange i htok hresp]
  constructor
  · rintro ⟨a, hamem, hac⟩
    have hall : (cfg.Audience.all fun audience => contains i.Audience audience) = false := by
      rw [Bool.eq_false_iff]
      intro hT
      rw [List.all_eq_true] at hT
      have h2 := hT a hamem
      rw [hac] at h2
      exact Bool.noConfusion h2
    unfold evalResult
    split_ifs <;> rfl
  · intro haud ht ha hiss hsc
    exact evalResult_accepts cfg i ht ha haud hiss hsc

/-- Witness for C7: requiring `["svc1", "svc2"]` against audience `["svc1"]`
rejects; requiring `["svc1"]` against the same audience (with every other
check passing) accepts. -/
theorem audience_policy_witness :
    handle cfgTwoAudiences tokStr exchangeAudience = Outcome.unauthorized ∧
    handle cfgOneAudience tokStr exchangeAudience =
      Outcome.next (buildSession audienceResult) :=
  ⟨(audience_policy cfgTwoAudiences tokStr exchangeAudience audienceResult
      (by decide) rfl).1 ⟨"svc2", by decide, by decide⟩,
   (audience_policy cfgOneAudience tokStr exchangeAudience audienceResult
      (by decide) rfl).2 (by decide) (Or.inl rfl) rfl (Or.inl rfl)
      (fun st hst => Option.noConfusion hst)⟩

/-- C8: the header token extractor strips the scheme prefix plus one
separator character and returns the remainder, and returns the empty string
whenever the header value is shorter than `length(scheme) + 1` characters or
does not start with the scheme. -/
theorem tokenFromHeader_spec (authScheme auth : List Char) :
    (auth.length < authScheme.length + 1 ∨ auth.take authScheme.length ≠ authScheme →
      TokenFromHeader authScheme auth = []) ∧
    (authScheme.length + 1 ≤ auth.length ∧ auth.take authScheme.length = authScheme →
      TokenFromHeader authScheme auth = auth.drop (authScheme.length + 1)) := by
  constructor
  · intro h
    unfold TokenFromHeader
    rw [if_neg]
    rcases h with h | h
    · rintro ⟨hlt, -⟩
      omega
    · rintro ⟨-, hq⟩
      exact h hq
  · rintro ⟨hle, hq⟩
    unfold TokenFromHeader
    rcases Nat.lt_or_ge (authScheme.length + 1) auth.length with hlt | hge
    · rw [if_pos ⟨hlt, hq⟩]
    · have heq : auth.length = authScheme.length + 1 := Nat.le_antisymm hge hle
      rw [if_neg]
      · rw [← heq, List.drop_length]
      · rintro ⟨hlt, -⟩
        omega

/-- Witness for C8: `"Bearer abc123"` yields the characters after the scheme
and separator; a `"Basic"`-scheme header yields the empty string. -/
theorem tokenFromHeader_spec_witness :
    TokenFromHeader bearerScheme authHeaderOk = authHeaderOk.drop 7 ∧
    TokenFromHeader bearerScheme authHeaderBad = [] :=
  ⟨(tokenFromHeader_spec bearerScheme authHeaderOk).2 ⟨by decide, by decide⟩,
   (tokenFromHeader_spec bearerScheme authHeaderBad).1 (Or.inr (by decide))⟩

/-- C9 (documenting the missing `Filter` feature): control can reach the next
handler only through the full pipeline — a non-empty extracted token, an
introspection exchange answering 200 with a decodable body, and a policy
acceptance.  `Config` has no request-filter field, so no configuration makes
the handler bypass token extraction, the introspection call, or the policy
checks. -/
theorem next_requires_introspection (cfg : Config) (token : String)
    (exchange : List (String × String) → HttpResult) (s : Session)
    (h : handle cfg token exchange = Outcome.next s) :
    token ≠ "" ∧ ∃ i : introspectionResult,
      exchange (requestBody cfg token) = HttpResult.response 200 (JsonBody.decoded i) ∧
      evalResult cfg i = Outcome.next s := by
  by_cases htok : token = ""
  · unfold handle at h
    rw [if_pos htok] at h
    exact Outcome.noConfusion h
  · refine ⟨htok, ?_⟩
    unfold handle at h
    rw [if_neg htok] at h
    cases hx : exchange (requestBody cfg token) with
    | transportError =>
      rw [hx] at h
      exact Outcome.noConfusion h
    | response status body =>
      rw [hx] at h
      simp only [handleResponse] at h
      by_cases hs : status ≠ 200
      · rw [if_pos hs] at h
        exact Outcome.noConfusion h
      · rw [if_neg hs] at h
        push_neg at hs
        cases body with
        | malformed => exact Outcome.noConfusion h
        | decoded i =>
          refine ⟨i, ?_, h⟩
          rw [hs]

/-- Witness for C9's theorem: a concrete accepted request, showing the only
road to `c.Next` runs through the introspection exchange. -/
theorem next_requires_introspection_witness :
    tokStr ≠ "" ∧ ∃ i : introspectionResult,
      exchangeAudience (requestBody cfgOneAudience tokStr) =
        HttpResult.response 200 (JsonBody.decoded i) ∧
      evalResult cfgOneAudience i = Outcome.next (buildSession audienceResult) :=
  next_requires_introspection cfgOneAudience tokStr exchangeAudience
    (buildSession audienceResult) (by decide)

end Introspect
